import Mathlib

/-!
Verification of the todo-list CRUD slice of `debugfest/mern-todo-list`.

The embedded code is the Express route surface in `src/App/server/config/db.js`
(GET / POST / DELETE / PATCH on `/api/todos`) together with the client-side
list reconciliation in the React controller (`editTodo` in the main app
component).  Strings are modelled as `List Char`; MongoDB documents as a list
of `TodoItem` records; each route handler is a pure function from a store and
a request to a response paired with the resulting store.  The `$regex`
duplicate query of the PATCH handler is modelled by a small matcher covering
the fragment of patterns the development exercises (literal characters, `.`,
and `*`); every pattern containing any other regex metacharacter is routed to
the query-error path, matching the fact that the interpolated user text is
not escaped.
-/

/-- Strings of the embedded program, as explicit character lists. -/
abbrev Str := List Char

/-- Whitespace recognised by `String.prototype.trim` (the characters the
development exercises: space, tab, newline, carriage return). -/
def isSpace (c : Char) : Bool := c = ' ' || c = '\t' || c = '\n' || c = '\r'

/-- JavaScript `text.trim()`: drop whitespace from both ends. -/
def trim (l : Str) : Str :=
  ((l.dropWhile isSpace).reverse.dropWhile isSpace).reverse

/-- Lowercasing used to model the `$options: 'i'` case-insensitive
comparison (ASCII case folding). -/
def lowered (l : Str) : Str := l.map Char.toLower

/-- Atomic elements of the modelled regex fragment. -/
inductive RElem where
  | lit (c : Char)
  | dot
deriving DecidableEq, Repr

/-- A regex piece: an atom matched once, or an atom under a Kleene star. -/
inductive RPiece where
  | once (e : RElem)
  | star (e : RElem)
deriving DecidableEq, Repr

/-- The regex metacharacters of the PCRE dialect MongoDB evaluates; the PATCH
handler interpolates raw user text into the pattern, so any of these in the
text changes the meaning of the query. -/
def metachars : List Char := ['.', '*', '+', '?', '^', '$', '(', ')', '[', ']', '\x7b', '\x7d', '|', '\\']

/-- Interpretation of one pattern character: `.` is a wildcard, other
metacharacters fall outside of the modelled fragment, the rest are literals. -/
def mkElem (c : Char) : Option RElem :=
  if c = '.' then some RElem.dot
  else if metachars.contains c then none
  else some (RElem.lit c)

/-- Parser for the modelled regex fragment: a sequence of atoms, each
optionally followed by `*`.  Patterns outside of the fragment give `none`,
which the store model maps to a query error (the observable behaviour for
genuinely invalid patterns such as an unmatched parenthesis). -/
def parseRegex : List Char → Option (List RPiece)
  | [] => some []
  | [c] => (mkElem c).map (fun e => [RPiece.once e])
  | c :: c2 :: rest =>
    match mkElem c with
    | none => none
    | some e =>
      if c2 = '*' then (parseRegex rest).map (fun ps => RPiece.star e :: ps)
      else (parseRegex (c2 :: rest)).map (fun ps => RPiece.once e :: ps)

/-- Case-insensitive match of one atom against one character. -/
def elemMatch : RElem → Char → Bool
  | RElem.lit c, d => c.toLower = d.toLower
  | RElem.dot, _ => true

/-- Fuelled backtracking matcher for a piece sequence against a whole string
(the handler anchors the pattern with `^` and `$`, so matching is always
against the entire candidate text). -/
def rmatchF : Nat → List RPiece → List Char → Bool
  | 0, _, _ => false
  | _ + 1, [], [] => true
  | _ + 1, [], _ :: _ => false
  | _ + 1, RPiece.once _ :: _, [] => false
  | f + 1, RPiece.once e :: ps, c :: cs => elemMatch e c && rmatchF f ps cs
  | f + 1, RPiece.star _ :: ps, [] => rmatchF f ps []
  | f + 1, RPiece.star e :: ps, c :: cs =>
    rmatchF f ps (c :: cs) || (elemMatch e c && rmatchF f (RPiece.star e :: ps) cs)

/-- Full-string match, with enough fuel for the matcher to run to completion. -/
def rmatch (ps : List RPiece) (s : List Char) : Bool :=
  rmatchF (ps.length + s.length + 1) ps s

/-- One MongoDB todo document, as produced by the Todo model: `_id`, `text`,
`completed` and the `createdAt` timestamp (modelled as a number). -/
structure TodoItem where
  _id : Str
  text : Str
  completed : Bool
  createdAt : Nat
deriving DecidableEq, Repr

/-- The todos collection. -/
abbrev Store := List TodoItem

/-- Hexadecimal digit test for ObjectId strings. -/
def isHexDigit (c : Char) : Bool :=
  c.isDigit || ('a' ≤ c && c ≤ 'f') || ('A' ≤ c && c ≤ 'F')

/-- An identifier in the store's native format: a 24-character hexadecimal
MongoDB ObjectId string.  Route parameters that are not of this shape make
Mongoose throw a `CastError` when cast to the `_id` path. -/
def isValidObjectId (id : Str) : Bool :=
  id.length = 24 && id.all isHexDigit

/-- Errors raised by the store layer and caught by the route handlers. -/
inductive DbErr where
  | castError
  | regexError
  | validationError (m : Str)
deriving DecidableEq, Repr

/-- Message of the handler check rejecting blank text, and (per the spec) of
the schema-level required validation. -/
def textRequiredMsg : Str := "Text is required".toList

/-- Message of the PATCH duplicate rejection. -/
def duplicateMsg : Str := "Duplicate todo text".toList

/-- Message of the 404 responses. -/
def todoNotFoundMsg : Str := "Todo not found".toList

/-- Message of the DELETE success response. -/
def deletedMsg : Str := "Todo deleted successfully".toList

/-- Message carried by a Mongoose ObjectId cast failure. -/
def castErrorMsg : Str := "Cast to ObjectId failed".toList

/-- Message carried by a MongoDB invalid-regular-expression failure. -/
def regexErrorMsg : Str := "Regular expression is invalid".toList

/-- The `error.message` a handler exposes in its error response. -/
def DbErr.message : DbErr → Str
  | DbErr.castError => castErrorMsg
  | DbErr.regexError => regexErrorMsg
  | DbErr.validationError m => m

instance {ε α : Type} [DecidableEq ε] [DecidableEq α] : DecidableEq (Except ε α) := fun x y =>
  match x, y with
  | Except.error a, Except.error b =>
    match decEq a b with
    | isTrue h => isTrue (by rw [h])
    | isFalse h => isFalse (fun hh => by injection hh; contradiction)
  | Except.error _, Except.ok _ => isFalse (fun hh => Except.noConfusion hh)
  | Except.ok _, Except.error _ => isFalse (fun hh => Except.noConfusion hh)
  | Except.ok a, Except.ok b =>
    match decEq a b with
    | isTrue h => isTrue (by rw [h])
    | isFalse h => isFalse (fun hh => by injection hh; contradiction)

/-- JSON bodies the handlers send: an item list, a single item, or a
`{message: ...}` object. -/
inductive Body where
  | items (l : List TodoItem)
  | item (t : TodoItem)
  | message (m : Str)
deriving DecidableEq, Repr

/-- An HTTP response: status code and JSON body. -/
structure Resp where
  status : Nat
  body : Body
deriving DecidableEq, Repr

/-- Sort order of `Todo.find().sort({createdAt: -1})`: newest first. -/
def byCreatedAtDesc (a b : TodoItem) : Prop := b.createdAt ≤ a.createdAt

instance : DecidableRel byCreatedAtDesc :=
  fun a b => inferInstanceAs (Decidable (b.createdAt ≤ a.createdAt))

instance : IsTotal TodoItem byCreatedAtDesc :=
  ⟨fun a b => (Nat.le_total a.createdAt b.createdAt).symm⟩

instance : IsTrans TodoItem byCreatedAtDesc :=
  ⟨fun _ _ _ hab hbc => Nat.le_trans hbc hab⟩

/-- Modelled from the spec: `models/Todo.js` (the Mongoose Todo schema) is not
under `src/`; only its importers are.  Per the spec, the schema trims the
text, fails validation with a `Text is required` message when the text is
empty after trimming, defaults `completed` to false, and assigns a fresh
`_id` and a `createdAt` timestamp.  `todo.save()` appends the document to the
collection. -/
def todoSave (s : Store) (text : Str) (newId : Str) (now : Nat) :
    Except DbErr (TodoItem × Store) :=
  if trim text = [] then Except.error (DbErr.validationError textRequiredMsg)
  else
    let it : TodoItem := ⟨newId, trim text, false, now⟩
    Except.ok (it, s ++ [it])

/-- Removal of the document with the given `_id` (the first match; `_id` is
unique in a real collection). -/
def removeFirstById (s : Store) (id : Str) : Store :=
  match s with
  | [] => []
  | x :: rest => if x._id = id then rest else x :: removeFirstById rest id

/-- Text update of the document with the given `_id`. -/
def setTextFirstById (s : Store) (id : Str) (newText : Str) : Store :=
  match s with
  | [] => []
  | x :: rest =>
    if x._id = id then { x with text := newText } :: rest
    else x :: setTextFirstById rest id newText

/-- Model of `Todo.findByIdAndDelete(id)`: a malformed identifier raises a
cast error; otherwise the matching document (if any) is removed and
returned. -/
def findByIdAndDelete (s : Store) (id : Str) :
    Except DbErr (Option TodoItem × Store) :=
  if isValidObjectId id then
    match s.find? (fun x => x._id == id) with
    | none => Except.ok (none, s)
    | some it => Except.ok (some it, removeFirstById s id)
  else Except.error DbErr.castError

/-- Model of the PATCH handler's duplicate query
`Todo.findOne({text: {$regex: ^pat$, $options: 'i'}, _id: {$ne: excludeId}})`:
casting a malformed exclude identifier raises a cast error, an invalid
pattern raises a query error, and otherwise the first document with a
different `_id` whose whole text matches the pattern case-insensitively is
returned. -/
def findOneDupQuery (s : Store) (pat : Str) (excludeId : Str) :
    Except DbErr (Option TodoItem) :=
  if isValidObjectId excludeId then
    match parseRegex pat with
    | none => Except.error DbErr.regexError
    | some ps => Except.ok (s.find? (fun x => !(x._id == excludeId) && rmatch ps x.text))
  else Except.error DbErr.castError

/-- Model of `Todo.findByIdAndUpdate(id, {text: newText}, {new: true})`: a
malformed identifier raises a cast error; otherwise the matching document is
updated and returned in its post-update state. -/
def findByIdAndUpdate (s : Store) (id : Str) (newText : Str) :
    Except DbErr (Option TodoItem × Store) :=
  if isValidObjectId id then
    match s.find? (fun x => x._id == id) with
    | none => Except.ok (none, s)
    | some it => Except.ok (some { it with text := newText }, setTextFirstById s id newText)
  else Except.error DbErr.castError

/-- Handler of `GET /api/todos`: all todos sorted by `createdAt` descending. -/
def getTodos (s : Store) : Resp × Store :=
  (⟨200, Body.items (List.insertionSort byCreatedAtDesc s)⟩, s)

/-- Handler of `POST /api/todos`.  The body's `text` is `none` when absent
(JavaScript `undefined`); the handler's `if (!text)` check also fires on the
empty string.  Validation or save errors surface as a 400 with the error
message. -/
def postTodos (s : Store) (text : Option Str) (newId : Str) (now : Nat) :
    Resp × Store :=
  match text with
  | none => (⟨400, Body.message textRequiredMsg⟩, s)
  | some t =>
    if t = [] then (⟨400, Body.message textRequiredMsg⟩, s)
    else
      match todoSave s t newId now with
      | Except.error e => (⟨400, Body.message e.message⟩, s)
      | Except.ok (it, s2) => (⟨201, Body.item it⟩, s2)

/-- Handler of `DELETE /api/todos/:id`. -/
def deleteTodos (s : Store) (id : Str) : Resp × Store :=
  match findByIdAndDelete s id with
  | Except.error e => (⟨500, Body.message e.message⟩, s)
  | Except.ok (none, _) => (⟨404, Body.message todoNotFoundMsg⟩, s)
  | Except.ok (some _, s2) => (⟨200, Body.message deletedMsg⟩, s2)

/-- Body of a PATCH request; the handler destructures only `text` from it,
so `completed` is carried here to make that visible. -/
structure PatchBody where
  text : Option Str
  completed : Option Bool
deriving DecidableEq, Repr

/-- Handler of `PATCH /api/todos/:id`: rejects blank text, rejects texts whose
interpolated duplicate query finds another document, and otherwise stores the
trimmed text, returning the post-update document.  The body's `completed`
field is never read. -/
def patchTodos (s : Store) (id : Str) (body : PatchBody) : Resp × Store :=
  match body.text with
  | none => (⟨400, Body.message textRequiredMsg⟩, s)
  | some t =>
    if t = [] ∨ trim t = [] then (⟨400, Body.message textRequiredMsg⟩, s)
    else
      match findOneDupQuery s (trim t) id with
      | Except.error e => (⟨500, Body.message e.message⟩, s)
      | Except.ok (some _) => (⟨400, Body.message duplicateMsg⟩, s)
      | Except.ok none =>
        match findByIdAndUpdate s id (trim t) with
        | Except.error e => (⟨500, Body.message e.message⟩, s)
        | Except.ok (none, _) => (⟨404, Body.message todoNotFoundMsg⟩, s)
        | Except.ok (some it, s2) => (⟨200, Body.item it⟩, s2)

/-- The client controller's local reconciliation on the text branch of
`editTodo`: after a successful PATCH it maps the list, replacing the matching
item's text with the text exactly as the caller provided it (untrimmed). -/
def editTodoLocalText (todos : List TodoItem) (id : Str) (t : Str) :
    List TodoItem :=
  todos.map (fun todo => if todo._id = id then { todo with text := t } else todo)

/-- A well-formed ObjectId used in concrete scenarios (from the code's own
route comments). -/
def oid1 : Str := "507f1f77bcf86cd799439011".toList

/-- A second, distinct well-formed ObjectId. -/
def oid2 : Str := "507f1f77bcf86cd799439012".toList

/-! ### Matcher lemmas -/

/-- The fuelled matcher is fuel-irrelevant once the fuel exceeds the combined
length of pattern and string. -/
theorem rmatchF_congr : ∀ (f g : Nat) (ps : List RPiece) (s : List Char),
    ps.length + s.length < f → ps.length + s.length < g →
    rmatchF f ps s = rmatchF g ps s := by
  intro f
  induction f with
  | zero => intro g ps s hf _; omega
  | succ k ih =>
    intro g ps s hf hg
    cases g with
    | zero => omega
    | succ g2 =>
      cases ps with
      | nil =>
        cases s with
        | nil => rfl
        | cons c cs => rfl
      | cons p ps2 =>
        cases p with
        | once e =>
          cases s with
          | nil => rfl
          | cons c cs =>
            simp only [rmatchF]
            have h1 : ps2.length + cs.length < k := by
              simp only [List.length_cons] at hf; omega
            have h2 : ps2.length + cs.length < g2 := by
              simp only [List.length_cons] at hg; omega
            rw [ih g2 ps2 cs h1 h2]
        | star e =>
          cases s with
          | nil =>
            simp only [rmatchF]
            have h1 : ps2.length + List.length ([] : List Char) < k := by
              simp only [List.length_cons, List.length_nil] at hf ⊢; omega
            have h2 : ps2.length + List.length ([] : List Char) < g2 := by
              simp only [List.length_cons, List.length_nil] at hg ⊢; omega
            exact ih g2 ps2 [] h1 h2
          | cons c cs =>
            simp only [rmatchF]
            have h1 : ps2.length + (c :: cs).length < k := by
              simp only [List.length_cons] at hf ⊢; omega
            have h2 : ps2.length + (c :: cs).length < g2 := by
              simp only [List.length_cons] at hg ⊢; omega
            have h3 : (RPiece.star e :: ps2).length + cs.length < k := by
              simp only [List.length_cons] at hf ⊢; omega
            have h4 : (RPiece.star e :: ps2).length + cs.length < g2 := by
              simp only [List.length_cons] at hg ⊢; omega
            rw [ih g2 ps2 (c :: cs) h1 h2, ih g2 (RPiece.star e :: ps2) cs h3 h4]

theorem rmatch_nil_nil : rmatch [] [] = true := rfl

theorem rmatch_nil_cons (c : Char) (cs : List Char) :
    rmatch [] (c :: cs) = false := rfl

theorem rmatch_once_nil (e : RElem) (ps : List RPiece) :
    rmatch (RPiece.once e :: ps) [] = false := rfl

theorem rmatch_once_cons (e : RElem) (ps : List RPiece) (c : Char) (cs : List Char) :
    rmatch (RPiece.once e :: ps) (c :: cs) = (elemMatch e c && rmatch ps cs) := by
  show rmatchF ((RPiece.once e :: ps).length + (c :: cs).length + 1) _ _ = _
  simp only [List.length_cons, rmatchF]
  rw [rmatchF_congr (ps.length + 1 + (cs.length + 1)) (ps.length + cs.length + 1) ps cs
    (by omega) (by omega)]
  rfl

theorem rmatch_star_nil (e : RElem) (ps : List RPiece) :
    rmatch (RPiece.star e :: ps) [] = rmatch ps [] := by
  show rmatchF ((RPiece.star e :: ps).length + List.length ([] : List Char) + 1) _ _ = _
  simp only [List.length_cons, List.length_nil, rmatchF]
  exact rmatchF_congr (ps.length + 1 + 0) (ps.length + 0 + 1) ps []
    (by simp only [List.length_nil]; omega) (by simp only [List.length_nil]; omega)

theorem rmatch_star_cons (e : RElem) (ps : List RPiece) (c : Char) (cs : List Char) :
    rmatch (RPiece.star e :: ps) (c :: cs) =
      (rmatch ps (c :: cs) || (elemMatch e c && rmatch (RPiece.star e :: ps) cs)) := by
  show rmatchF ((RPiece.star e :: ps).length + (c :: cs).length + 1) _ _ = _
  simp only [List.length_cons, rmatchF]
  rw [rmatchF_congr (ps.length + 1 + (cs.length + 1)) (ps.length + (c :: cs).length + 1)
    ps (c :: cs) (by simp only [List.length_cons]; omega)
    (by simp only [List.length_cons]; omega)]
  rw [rmatchF_congr (ps.length + 1 + (cs.length + 1)) ((RPiece.star e :: ps).length + cs.length + 1)
    (RPiece.star e :: ps) cs (by simp only [List.length_cons]; omega)
    (by simp only [List.length_cons]; omega)]
  rfl

/-- On a pattern consisting only of literal atoms, full-string matching is
exactly case-insensitive string equality. -/
theorem rmatch_lits : ∀ (t s : Str),
    (rmatch (t.map (fun c => RPiece.once (RElem.lit c))) s = true ↔ lowered t = lowered s) := by
  intro t
  induction t with
  | nil =>
    intro s
    cases s with
    | nil => simp [rmatch_nil_nil, lowered]
    | cons d s2 => simp [rmatch_nil_cons, lowered]
  | cons c t2 ih =>
    intro s
    cases s with
    | nil => simp [rmatch_once_nil, lowered]
    | cons d s2 =>
      simp only [List.map_cons, rmatch_once_cons, lowered, elemMatch,
        Bool.and_eq_true, decide_eq_true_eq, List.cons.injEq]
      constructor
      · rintro ⟨h1, h2⟩
        exact ⟨h1, (ih s2).mp h2⟩
      · rintro ⟨h1, h2⟩
        exact ⟨h1, (ih s2).mpr h2⟩

/-- On text free of regex metacharacters, the parser yields exactly the
literal pieces of the text. -/
theorem parseRegex_noMeta : ∀ (t : Str), (∀ c ∈ t, metachars.contains c = false) →
    parseRegex t = some (t.map (fun c => RPiece.once (RElem.lit c))) := by
  intro t
  induction t with
  | nil => intro _; rfl
  | cons c t2 ih =>
    intro h
    have hc : metachars.contains c = false := h c (List.mem_cons_self c t2)
    have hcdot : ¬c = '.' := by
      intro hEq
      rw [hEq] at hc
      exact absurd hc (by decide)
    have hmem : c ∉ metachars := by simpa using hc
    have hme : mkElem c = some (RElem.lit c) := by
      unfold mkElem
      rw [if_neg hcdot, if_neg (by simpa using hmem)]
    cases t2 with
    | nil => simp [parseRegex, hme, hmem]
    | cons c2 t3 =>
      have hc2 : ¬c2 = '*' := by
        intro hEq
        have := h c2 (List.mem_cons_of_mem c (List.mem_cons_self c2 t3))
        rw [hEq] at this
        exact absurd this (by decide)
      have ih2 := ih (fun x hx => h x (List.mem_cons_of_mem c hx))
      simp [parseRegex, hme, hc2, ih2]

/-! ### Trim lemmas -/

/-- Elements surviving at the head of a `dropWhile` fail the predicate. -/
theorem head?_dropWhile (p : Char → Bool) : ∀ (l : Str) (c : Char),
    (l.dropWhile p).head? = some c → p c = false := by
  intro l
  induction l with
  | nil => intro c h; simp [List.dropWhile] at h
  | cons x xs ih =>
    intro c h
    by_cases hx : p x
    · rw [List.dropWhile_cons_of_pos hx] at h
      exact ih c h
    · rw [List.dropWhile_cons_of_neg hx] at h
      simp only [List.head?_cons, Option.some.injEq] at h
      rw [← h]
      exact Bool.of_not_eq_true hx
/-- A nonempty `dropWhile` keeps the last element of the list. -/
theorem getLast?_dropWhile (p : Char → Bool) : ∀ (l : Str),
    l.dropWhile p ≠ [] → (l.dropWhile p).getLast? = l.getLast? := by
  intro l
  induction l with
  | nil => intro h; simp [List.dropWhile] at h
  | cons x xs ih =>
    intro h
    by_cases hx : p x
    · rw [List.dropWhile_cons_of_pos hx] at h ⊢
      cases hxs : xs with
      | nil => rw [hxs] at h; simp [List.dropWhile] at h
      | cons y ys =>
        rw [← hxs]
        rw [ih h, hxs, List.getLast?_cons_cons]
    · rw [List.dropWhile_cons_of_neg hx]

/-- A list whose head fails the predicate is unchanged by `dropWhile`. -/
theorem dropWhile_eq_self_of_head (p : Char → Bool) (l : Str)
    (h : ∀ c, l.head? = some c → p c = false) : l.dropWhile p = l := by
  cases l with
  | nil => rfl
  | cons x xs =>
    have hx : p x = false := h x rfl
    rw [List.dropWhile_cons_of_neg (by simp [hx])]

/-- JavaScript trimming is idempotent. -/
theorem trim_trim (l : Str) : trim (trim l) = trim l := by
  by_cases hb : (l.dropWhile isSpace).reverse.dropWhile isSpace = []
  · unfold trim
    rw [hb]
    rfl
  · have hhead : ∀ c, (trim l).head? = some c → isSpace c = false := by
      intro c hc
      unfold trim at hc
      rw [List.head?_reverse] at hc
      rw [getLast?_dropWhile isSpace _ hb, List.getLast?_reverse] at hc
      exact head?_dropWhile isSpace l c hc
    have hstep1 : (trim l).dropWhile isSpace = trim l :=
      dropWhile_eq_self_of_head isSpace (trim l) hhead
    have hstep2 : (trim l).reverse.dropWhile isSpace = (trim l).reverse := by
      apply dropWhile_eq_self_of_head
      intro c hc
      have : (trim l).reverse = (l.dropWhile isSpace).reverse.dropWhile isSpace := by
        unfold trim
        rw [List.reverse_reverse]
      rw [this] at hc
      exact head?_dropWhile isSpace _ c hc
    show (((trim l).dropWhile isSpace).reverse.dropWhile isSpace).reverse = trim l
    rw [hstep1, hstep2, List.reverse_reverse]

/-! ### Store lemmas -/

/-- With pairwise-distinct identifiers, removing the first `_id` match
removes exactly the matching documents. -/
theorem removeFirstById_eq_filter : ∀ (s : Store) (id : Str),
    (s.map TodoItem._id).Nodup →
    removeFirstById s id = s.filter (fun x => !(x._id == id)) := by
  intro s
  induction s with
  | nil => intro id _; rfl
  | cons x rest ih =>
    intro id hnd
    rw [List.map_cons, List.nodup_cons] at hnd
    by_cases hx : x._id = id
    · rw [removeFirstById, if_pos hx, List.filter_cons]
      have : (!(x._id == id)) = false := by simp [hx]
      rw [this]
      simp only [Bool.false_eq_true, if_false]
      symm
      rw [List.filter_eq_self]
      intro a ha
      simp only [Bool.not_eq_true', beq_eq_false_iff_ne, ne_eq]
      intro haid
      apply hnd.1
      have hxa : x._id = a._id := by rw [hx, haid]
      rw [hxa]
      exact List.mem_map_of_mem TodoItem._id ha
    · rw [removeFirstById, if_neg hx, List.filter_cons]
      have : (!(x._id == id)) = true := by simp [hx]
      rw [this]
      simp only [if_true]
      rw [ih id hnd.2]

/-- Finding by `_id` after a text update by the same `_id` yields the updated
document. -/
theorem find?_setTextFirstById : ∀ (s : Store) (id nt : Str) (it : TodoItem),
    s.find? (fun x => x._id == id) = some it →
    (setTextFirstById s id nt).find? (fun x => x._id == id) = some { it with text := nt } := by
  intro s
  induction s with
  | nil => intro id nt it h; simp [List.find?] at h
  | cons x rest ih =>
    intro id nt it h
    by_cases hx : x._id = id
    · rw [List.find?_cons_of_pos _ (by simp [hx])] at h
      injection h with h
      rw [setTextFirstById, if_pos hx]
      rw [List.find?_cons_of_pos _ (by simp [hx])]
      rw [← h]
    · rw [List.find?_cons_of_neg _ (by simp [hx])] at h
      rw [setTextFirstById, if_neg hx]
      rw [List.find?_cons_of_neg _ (by simp [hx])]
      exact ih id nt it h

/-- Finding by `_id` after the client's local text patch yields the locally
patched item. -/
theorem find?_editTodoLocalText : ∀ (c : List TodoItem) (id t : Str) (it : TodoItem),
    c.find? (fun x => x._id == id) = some it →
    (editTodoLocalText c id t).find? (fun x => x._id == id) = some { it with text := t } := by
  intro c
  induction c with
  | nil => intro id t it h; simp [List.find?] at h
  | cons x rest ih =>
    intro id t it h
    by_cases hx : x._id = id
    · rw [List.find?_cons_of_pos _ (by simp [hx])] at h
      injection h with h
      rw [editTodoLocalText, List.map_cons, if_pos hx]
      rw [List.find?_cons_of_pos _ (by simp [hx])]
      rw [← h]
    · rw [List.find?_cons_of_neg _ (by simp [hx])] at h
      rw [editTodoLocalText, List.map_cons, if_neg hx]
      rw [List.find?_cons_of_neg _ (by simp [hx])]
      exact ih id t it h

/-! ### Handler path lemmas -/

/-- The successful PATCH path: valid identifier pointing at a stored
document, non-blank text, duplicate query finding nothing.  The handler
stores the trimmed text and responds with the post-update document. -/
theorem patch_success (s : Store) (id t : Str) (it : TodoItem)
    (hid : isValidObjectId id = true)
    (hfind : s.find? (fun x => x._id == id) = some it)
    (ht : trim t ≠ [])
    (hdup : findOneDupQuery s (trim t) id = Except.ok none) :
    patchTodos s id ⟨some t, none⟩ =
      (⟨200, Body.item { it with text := trim t }⟩, setTextFirstById s id (trim t)) := by
  have htne : ¬(t = [] ∨ trim t = []) := by
    rintro (rfl | h)
    · exact ht rfl
    · exact ht h
  unfold patchTodos
  simp only [if_neg htne, hdup]
  unfold findByIdAndUpdate
  simp only [hid, if_true, hfind]

/-! ### Claim theorems -/

/-- C1: the spec says an update carrying only a `completed` boolean succeeds
and stores the boolean; the PATCH handler instead destructures only `text`
from the body and its `!text` guard rejects the request with a 400
`Text is required`, leaving the store untouched, so the client's
completed-toggle branch of `editTodo` can never persist.  This theorem
evaluates the handler at the failing input. -/
theorem C1_completed_only_patch_rejected :
    patchTodos [⟨oid1, "buy milk".toList, false, 1⟩] oid1 ⟨none, some true⟩ =
      (⟨400, Body.message textRequiredMsg⟩, [⟨oid1, "buy milk".toList, false, 1⟩]) := rfl

/-- C2: creating an item with empty or whitespace-only text fails with a 400
`Text is required` message and leaves the store (hence any later list) as it
was.  The empty string is caught by the handler's own `!text` check; a
whitespace-only string passes it and is rejected by the (spec-modelled)
schema validation, whose message the handler relays. -/
theorem C2_blank_create_rejected (s : Store) (t newId : Str) (now : Nat)
    (h : trim t = []) :
    postTodos s (some t) newId now = (⟨400, Body.message textRequiredMsg⟩, s) ∧
    getTodos (postTodos s (some t) newId now).2 = getTodos s := by
  have h1 : postTodos s (some t) newId now = (⟨400, Body.message textRequiredMsg⟩, s) := by
    by_cases ht : t = []
    · simp [postTodos, ht]
    · simp [postTodos, ht, todoSave, h, DbErr.message]
  exact ⟨h1, by rw [h1]⟩

theorem C2_blank_create_rejected_witness :
    (postTodos [] (some "".toList) oid2 5 = (⟨400, Body.message textRequiredMsg⟩, []) ∧
      getTodos (postTodos [] (some "".toList) oid2 5).2 = getTodos []) ∧
    (postTodos [] (some "   ".toList) oid2 5 = (⟨400, Body.message textRequiredMsg⟩, []) ∧
      getTodos (postTodos [] (some "   ".toList) oid2 5).2 = getTodos []) :=
  ⟨C2_blank_create_rejected [] "".toList oid2 5 (by decide),
   C2_blank_create_rejected [] "   ".toList oid2 5 (by decide)⟩

/-- C3 counterexample: the claim fails as stated.  The store holds another
item whose text `a*` is (case-insensitively) equal to the update's trimmed
text `a*`, yet the interpolated pattern `^a*$` does not match the literal
string `a*`, so the duplicate check misses, the update succeeds with 200 and
the target's text changes. -/
theorem C3_duplicate_check_missed_counterexample :
    patchTodos [⟨oid1, "b".toList, false, 1⟩, ⟨oid2, "a*".toList, false, 2⟩] oid1
        ⟨some "a*".toList, none⟩ =
      (⟨200, Body.item ⟨oid1, "a*".toList, false, 1⟩⟩,
        [⟨oid1, "a*".toList, false, 1⟩, ⟨oid2, "a*".toList, false, 2⟩]) ∧
    lowered (trim "a*".toList) = lowered ("a*".toList) ∧ ¬oid2 = oid1 := by decide

/-- C3 amended: for every update request whose trimmed text contains no regex
metacharacters and case-insensitively equals the text of some other existing
item, the request fails with the client error `Duplicate todo text` and the
store is unchanged. -/
theorem C3_amended_duplicate_rejected (s : Store) (id t : Str) (other : TodoItem)
    (hid : isValidObjectId id = true)
    (hmem : other ∈ s) (hne : other._id ≠ id)
    (hmeta : ∀ c ∈ trim t, metachars.contains c = false)
    (heq : lowered (trim t) = lowered other.text)
    (ht : trim t ≠ []) :
    patchTodos s id ⟨some t, none⟩ = (⟨400, Body.message duplicateMsg⟩, s) := by
  have htne : ¬(t = [] ∨ trim t = []) := by
    rintro (rfl | hh)
    · exact ht rfl
    · exact ht hh
  have hpred : (!(other._id == id) &&
      rmatch ((trim t).map (fun c => RPiece.once (RElem.lit c))) other.text) = true := by
    simp only [Bool.and_eq_true]
    exact ⟨by simp [hne], (rmatch_lits (trim t) other.text).mpr heq⟩
  have hfind : s.find? (fun x => !(x._id == id) &&
      rmatch ((trim t).map (fun c => RPiece.once (RElem.lit c))) x.text) ≠ none := by
    intro hnone
    rw [List.find?_eq_none] at hnone
    exact absurd hpred (by simpa using hnone other hmem)
  obtain ⟨r, hr⟩ := Option.ne_none_iff_exists'.mp hfind
  unfold patchTodos
  simp only [if_neg htne]
  unfold findOneDupQuery
  simp only [hid, if_true, parseRegex_noMeta (trim t) hmeta, hr]

theorem C3_amended_duplicate_rejected_witness :
    patchTodos [⟨oid1, "b".toList, false, 1⟩, ⟨oid2, "x".toList, false, 2⟩] oid1
        ⟨some " X ".toList, none⟩ =
      (⟨400, Body.message duplicateMsg⟩,
        [⟨oid1, "b".toList, false, 1⟩, ⟨oid2, "x".toList, false, 2⟩]) :=
  C3_amended_duplicate_rejected
    [⟨oid1, "b".toList, false, 1⟩, ⟨oid2, "x".toList, false, 2⟩] oid1 (" X ".toList)
    ⟨oid2, "x".toList, false, 2⟩ (by decide) (by simp) (by decide) (by decide)
    (by decide) (by decide)

/-- C4 counterexample: the claim says malformed identifiers fail with an
`InvalidArgument` client error distinct from a store error; the code instead
catches the Mongoose cast failure and answers 500 with the store error's
message (the same channel as any store failure), on delete and on update
alike. -/
theorem C4_malformed_id_is_500_counterexample :
    deleteTodos [] "xyz".toList = (⟨500, Body.message castErrorMsg⟩, []) ∧
    patchTodos [] "xyz".toList ⟨some "ok".toList, none⟩ =
      (⟨500, Body.message castErrorMsg⟩, []) ∧
    isValidObjectId "xyz".toList = false := by decide

/-- C4 amended: identifier lookups on update and delete fail with a 404
`Todo not found` when the well-formed identifier matches no item, and fail
with a 500 carrying the cast error message — the store-error channel, not a
distinct client error — when the identifier is malformed. -/
theorem C4_amended_lookup_failures (s : Store) (id t : Str) :
    (isValidObjectId id = true →
      s.find? (fun x => x._id == id) = none →
      deleteTodos s id = (⟨404, Body.message todoNotFoundMsg⟩, s) ∧
      (trim t ≠ [] → findOneDupQuery s (trim t) id = Except.ok none →
        patchTodos s id ⟨some t, none⟩ = (⟨404, Body.message todoNotFoundMsg⟩, s))) ∧
    (isValidObjectId id = false →
      deleteTodos s id = (⟨500, Body.message castErrorMsg⟩, s) ∧
      (trim t ≠ [] →
        patchTodos s id ⟨some t, none⟩ = (⟨500, Body.message castErrorMsg⟩, s))) := by
  constructor
  · intro hid hnone
    constructor
    · unfold deleteTodos findByIdAndDelete
      simp only [hid, if_true, hnone]
    · intro ht hdup
      have htne : ¬(t = [] ∨ trim t = []) := by
        rintro (rfl | hh)
        · exact ht rfl
        · exact ht hh
      unfold patchTodos
      simp only [if_neg htne, hdup]
      unfold findByIdAndUpdate
      simp only [hid, if_true, hnone]
  · intro hid
    have hid2 : ¬isValidObjectId id = true := by simp [hid]
    constructor
    · unfold deleteTodos findByIdAndDelete
      simp only [if_neg hid2]
      rfl
    · intro ht
      have htne : ¬(t = [] ∨ trim t = []) := by
        rintro (rfl | hh)
        · exact ht rfl
        · exact ht hh
      unfold patchTodos
      simp only [if_neg htne]
      unfold findOneDupQuery
      simp only [if_neg hid2]
      rfl

theorem C4_amended_lookup_failures_witness :
    deleteTodos [] oid1 = (⟨404, Body.message todoNotFoundMsg⟩, []) ∧
    patchTodos [] oid1 ⟨some "a".toList, none⟩ = (⟨404, Body.message todoNotFoundMsg⟩, []) ∧
    deleteTodos [] "xyz".toList = (⟨500, Body.message castErrorMsg⟩, []) ∧
    patchTodos [] "xyz".toList ⟨some "a".toList, none⟩ =
      (⟨500, Body.message castErrorMsg⟩, []) := by
  have h1 := (C4_amended_lookup_failures [] oid1 "a".toList).1 (by decide) (by decide)
  have h2 := (C4_amended_lookup_failures [] "xyz".toList "a".toList).2 (by decide)
  exact ⟨h1.1, h1.2 (by decide) (by decide), h2.1, h2.2 (by decide)⟩

/-- C5: for every non-blank input text, create stores and returns an item
whose text is the input with surrounding whitespace trimmed (the schema trim
is spec-modelled), appended to the collection; trimming is idempotent, so the
stored text is still non-empty after trimming. -/
theorem C5_create_stores_trimmed_text (s : Store) (t newId : Str) (now : Nat)
    (h : trim t ≠ []) :
    postTodos s (some t) newId now =
      (⟨201, Body.item ⟨newId, trim t, false, now⟩⟩, s ++ [⟨newId, trim t, false, now⟩]) ∧
    trim (trim t) = trim t ∧ trim t ≠ [] := by
  have htne : t ≠ [] := by
    intro hh
    rw [hh] at h
    exact h rfl
  refine ⟨?_, trim_trim t, h⟩
  simp [postTodos, htne, todoSave, h]

theorem C5_create_stores_trimmed_text_witness :
    postTodos [] (some "  Buy milk ".toList) oid1 3 =
      (⟨201, Body.item ⟨oid1, "Buy milk".toList, false, 3⟩⟩,
        [⟨oid1, "Buy milk".toList, false, 3⟩]) ∧
    trim (trim "  Buy milk ".toList) = trim "  Buy milk ".toList ∧
    trim "  Buy milk ".toList ≠ [] := by
  have h := C5_create_stores_trimmed_text [] "  Buy milk ".toList oid1 3 (by decide)
  have heq : trim "  Buy milk ".toList = "Buy milk".toList := by decide
  rw [heq] at h
  exact h

/-- C6: the list endpoint returns all stored items sorted by `createdAt`
descending (a permutation of the store, sorted newest-first), and in the
concrete two-create scenario with the second item created later, the
returned sequence is the second item followed by the first. -/
theorem C6_list_newest_first (s : Store) (a b idA idB : Str) (tA tB : Nat)
    (ha : trim a ≠ []) (hb : trim b ≠ []) (hlt : tA < tB) :
    (getTodos s = (⟨200, Body.items (List.insertionSort byCreatedAtDesc s)⟩, s) ∧
      List.Sorted byCreatedAtDesc (List.insertionSort byCreatedAtDesc s) ∧
      List.Perm (List.insertionSort byCreatedAtDesc s) s) ∧
    (getTodos (postTodos (postTodos [] (some a) idA tA).2 (some b) idB tB).2).1 =
      ⟨200, Body.items [⟨idB, trim b, false, tB⟩, ⟨idA, trim a, false, tA⟩]⟩ := by
  constructor
  · exact ⟨rfl, List.sorted_insertionSort byCreatedAtDesc s,
      List.perm_insertionSort byCreatedAtDesc s⟩
  · have hane : a ≠ [] := by
      intro hh
      rw [hh] at ha
      exact ha rfl
    have hbne : b ≠ [] := by
      intro hh
      rw [hh] at hb
      exact hb rfl
    have hA : (postTodos [] (some a) idA tA).2 = [⟨idA, trim a, false, tA⟩] := by
      simp [postTodos, hane, todoSave, ha]
    rw [hA]
    have hB : (postTodos [⟨idA, trim a, false, tA⟩] (some b) idB tB).2 =
        [⟨idA, trim a, false, tA⟩, ⟨idB, trim b, false, tB⟩] := by
      simp [postTodos, hbne, todoSave, hb]
    rw [hB]
    have hnot : ¬byCreatedAtDesc ⟨idA, trim a, false, tA⟩ ⟨idB, trim b, false, tB⟩ := by
      unfold byCreatedAtDesc
      simp only []
      omega
    unfold getTodos
    simp [List.insertionSort, List.orderedInsert, hnot]

theorem C6_list_newest_first_witness :
    (getTodos [] = (⟨200, Body.items (List.insertionSort byCreatedAtDesc [])⟩, []) ∧
      List.Sorted byCreatedAtDesc (List.insertionSort byCreatedAtDesc []) ∧
      List.Perm (List.insertionSort byCreatedAtDesc []) []) ∧
    (getTodos (postTodos (postTodos [] (some "A".toList) oid1 1).2
        (some "B".toList) oid2 2).2).1 =
      ⟨200, Body.items [⟨oid2, trim "B".toList, false, 2⟩, ⟨oid1, trim "A".toList, false, 1⟩]⟩ :=
  C6_list_newest_first [] "A".toList "B".toList oid1 oid2 1 2
    (by decide) (by decide) (by decide)

/-- C7 counterexample: the claim fails as stated.  The text `(` is valid
(non-blank after trimming) and duplicates no other item — the store holds
only the target — yet interpolating it yields an invalid regular expression,
so the update answers 500 and nothing is persisted, instead of succeeding. -/
theorem C7_valid_text_update_500_counterexample :
    patchTodos [⟨oid1, "hello".toList, false, 1⟩] oid1 ⟨some "(".toList, none⟩ =
      (⟨500, Body.message regexErrorMsg⟩, [⟨oid1, "hello".toList, false, 1⟩]) ∧
    trim "(".toList ≠ [] ∧
    (∀ x ∈ [(⟨oid1, "hello".toList, false, 1⟩ : TodoItem)],
      x._id ≠ oid1 → lowered (trim "(".toList) ≠ lowered x.text) := by decide

/-- C7 amended: for every existing item and non-blank text free of regex
metacharacters that case-insensitively duplicates no other item, the update
succeeds, persists the trimmed text, and returns the item in its post-patch
state. -/
theorem C7_amended_update_persists_trimmed (s : Store) (id t : Str) (it : TodoItem)
    (hid : isValidObjectId id = true)
    (hfind : s.find? (fun x => x._id == id) = some it)
    (ht : trim t ≠ [])
    (hmeta : ∀ c ∈ trim t, metachars.contains c = false)
    (hnodup : ∀ x ∈ s, x._id ≠ id → lowered (trim t) ≠ lowered x.text) :
    patchTodos s id ⟨some t, none⟩ =
      (⟨200, Body.item { it with text := trim t }⟩, setTextFirstById s id (trim t)) := by
  apply patch_success s id t it hid hfind ht
  unfold findOneDupQuery
  simp only [hid, if_true, parseRegex_noMeta (trim t) hmeta]
  have hnone : s.find? (fun x => !(x._id == id) &&
      rmatch ((trim t).map (fun c => RPiece.once (RElem.lit c))) x.text) = none := by
    rw [List.find?_eq_none]
    intro x hx hpred
    simp only [Bool.and_eq_true] at hpred
    obtain ⟨h1, h2⟩ := hpred
    have hxid : x._id ≠ id := by simpa using h1
    exact hnodup x hx hxid ((rmatch_lits (trim t) x.text).mp h2)
  rw [hnone]

theorem C7_amended_update_persists_trimmed_witness :
    patchTodos [⟨oid1, "a".toList, false, 1⟩] oid1 ⟨some " New ".toList, none⟩ =
      (⟨200, Body.item ⟨oid1, trim " New ".toList, false, 1⟩⟩,
        setTextFirstById [⟨oid1, "a".toList, false, 1⟩] oid1 (trim " New ".toList)) :=
  C7_amended_update_persists_trimmed [⟨oid1, "a".toList, false, 1⟩] oid1
    (" New ".toList) ⟨oid1, "a".toList, false, 1⟩ (by decide) (by decide) (by decide)
    (by decide) (by decide)

/-- C8: deleting an existing item answers 200 with the
`Todo deleted successfully` message and removes exactly the matching item
(under the collection's unique-identifier invariant); deleting a well-formed
but absent identifier answers 404 `Todo not found` and leaves the store, and
hence any subsequent list, unchanged. -/
theorem C8_delete_semantics (s : Store) (id : Str) (it : TodoItem)
    (hid : isValidObjectId id = true) :
    (s.find? (fun x => x._id == id) = some it →
      deleteTodos s id = (⟨200, Body.message deletedMsg⟩, removeFirstById s id) ∧
      ((s.map TodoItem._id).Nodup →
        (deleteTodos s id).2 = s.filter (fun x => !(x._id == id)))) ∧
    (s.find? (fun x => x._id == id) = none →
      deleteTodos s id = (⟨404, Body.message todoNotFoundMsg⟩, s) ∧
      getTodos (deleteTodos s id).2 = getTodos s) := by
  constructor
  · intro hfind
    have h1 : deleteTodos s id = (⟨200, Body.message deletedMsg⟩, removeFirstById s id) := by
      unfold deleteTodos findByIdAndDelete
      simp only [hid, if_true, hfind]
    refine ⟨h1, fun hnd => ?_⟩
    rw [h1]
    exact removeFirstById_eq_filter s id hnd
  · intro hfind
    have h1 : deleteTodos s id = (⟨404, Body.message todoNotFoundMsg⟩, s) := by
      unfold deleteTodos findByIdAndDelete
      simp only [hid, if_true, hfind]
    exact ⟨h1, by rw [h1]⟩

theorem C8_delete_semantics_witness :
    (deleteTodos [⟨oid1, "a".toList, false, 1⟩] oid1 =
      (⟨200, Body.message deletedMsg⟩, removeFirstById [⟨oid1, "a".toList, false, 1⟩] oid1) ∧
     (deleteTodos [⟨oid1, "a".toList, false, 1⟩] oid1).2 =
      List.filter (fun x => !(x._id == oid1)) [⟨oid1, "a".toList, false, 1⟩]) ∧
    (deleteTodos [⟨oid1, "a".toList, false, 1⟩] oid2 =
      (⟨404, Body.message todoNotFoundMsg⟩, [⟨oid1, "a".toList, false, 1⟩]) ∧
     getTodos (deleteTodos [⟨oid1, "a".toList, false, 1⟩] oid2).2 =
      getTodos [⟨oid1, "a".toList, false, 1⟩]) := by
  have h1 := (C8_delete_semantics [⟨oid1, "a".toList, false, 1⟩] oid1
    ⟨oid1, "a".toList, false, 1⟩ (by decide)).1 (by decide)
  have h2 := (C8_delete_semantics [⟨oid1, "a".toList, false, 1⟩] oid2
    ⟨oid1, "a".toList, false, 1⟩ (by decide)).2 (by decide)
  exact ⟨⟨h1.1, h1.2 (by decide)⟩, h2⟩

/-- C9: because the PATCH handler interpolates the raw trimmed text into the
`$regex` pattern without escaping, the text `a.b` — whose `.` acts as a
wildcard — is rejected as a duplicate of the other item `axb`, even though no
other item's text is case-insensitively equal to `a.b`, and the store is left
unchanged. -/
theorem C9_unescaped_regex_false_duplicate :
    patchTodos [⟨oid1, "old".toList, false, 1⟩, ⟨oid2, "axb".toList, false, 2⟩] oid1
        ⟨some "a.b".toList, none⟩ =
      (⟨400, Body.message duplicateMsg⟩,
        [⟨oid1, "old".toList, false, 1⟩, ⟨oid2, "axb".toList, false, 2⟩]) ∧
    (∀ x ∈ [(⟨oid1, "old".toList, false, 1⟩ : TodoItem), ⟨oid2, "axb".toList, false, 2⟩],
      x._id ≠ oid1 → lowered (trim "a.b".toList) ≠ lowered x.text) := by decide

/-- C10: on a successful text edit the client patches its local list with the
raw caller-provided text while the server persists the trimmed text, so for
any edit text carrying surrounding whitespace the client's mirror of the item
differs from the server's stored item. -/
theorem C10_client_server_text_divergence (s c : List TodoItem) (id t : Str)
    (itS itC : TodoItem)
    (hid : isValidObjectId id = true)
    (hS : s.find? (fun x => x._id == id) = some itS)
    (hC : c.find? (fun x => x._id == id) = some itC)
    (ht : trim t ≠ [])
    (hdup : findOneDupQuery s (trim t) id = Except.ok none)
    (hws : t ≠ trim t) :
    (patchTodos s id ⟨some t, none⟩).1 = ⟨200, Body.item { itS with text := trim t }⟩ ∧
    (patchTodos s id ⟨some t, none⟩).2.find? (fun x => x._id == id) =
      some { itS with text := trim t } ∧
    (editTodoLocalText c id t).find? (fun x => x._id == id) = some { itC with text := t } ∧
    ({ itC with text := t }).text ≠ ({ itS with text := trim t }).text := by
  have hp := patch_success s id t itS hid hS ht hdup
  refine ⟨by rw [hp], ?_, find?_editTodoLocalText c id t itC hC, hws⟩
  rw [hp]
  exact find?_setTextFirstById s id (trim t) itS hS

theorem C10_client_server_text_divergence_witness :
    (patchTodos [⟨oid1, "a".toList, false, 1⟩] oid1 ⟨some " x y ".toList, none⟩).1 =
      ⟨200, Body.item ⟨oid1, trim " x y ".toList, false, 1⟩⟩ ∧
    (patchTodos [⟨oid1, "a".toList, false, 1⟩] oid1
        ⟨some " x y ".toList, none⟩).2.find? (fun x => x._id == oid1) =
      some ⟨oid1, trim " x y ".toList, false, 1⟩ ∧
    (editTodoLocalText [⟨oid1, "a".toList, false, 1⟩] oid1 " x y ".toList).find?
        (fun x => x._id == oid1) = some ⟨oid1, " x y ".toList, false, 1⟩ ∧
    (⟨oid1, " x y ".toList, false, 1⟩ : TodoItem).text ≠
      (⟨oid1, trim " x y ".toList, false, 1⟩ : TodoItem).text :=
  C10_client_server_text_divergence [⟨oid1, "a".toList, false, 1⟩]
    [⟨oid1, "a".toList, false, 1⟩] oid1 (" x y ".toList)
    ⟨oid1, "a".toList, false, 1⟩ ⟨oid1, "a".toList, false, 1⟩
    (by decide) (by decide) (by decide) (by decide) (by decide) (by decide)
